import Mathlib

/-!
Shallow embedding of the cosmos-swap repository pieces the claims concern:
the EVM Escrow contract (src/evm/contracts/escrow/Escrow.sol), the
DutchAuction contract (src/evm/contracts/DutchAuction.sol), the Timelock
helper (src/evm/contracts/htlc/Timelock.sol), the relayer order manager
(src/relayer/pkg/order_manager/manager.go) and the Cosmos HTLC keeper
(src/x/htlc/keeper/keeper.go).  Addresses, hashes and amounts are modelled
as natural numbers; keccak256 and sha256 are abstract function parameters;
block timestamps are explicit arguments.  Fallible entry points return
Except values; an error means the transaction reverts and no state change
survives, mirroring EVM revert and Cosmos message rollback semantics.
-/

deriving instance DecidableEq for Except

namespace CosmosSwap

namespace Escrow

/-- EscrowStatus from Escrow.sol. -/
inductive EscrowStatus where
  | Active
  | Withdrawn
  | Cancelled
deriving DecidableEq

/-- The solidity custom errors of Escrow.sol. -/
inductive EscrowError where
  | Unauthorized
  | InvalidSecret
  | AlreadyWithdrawn
  | AlreadyCancelled
  | TimelockNotExpired
  | InsufficientFunds
  | InvalidAmount
  | SourceEscrowNotConfirmed
  | PartialFillNotAllowed
  | InvalidPartialFillAmount
  | OrderFullyFilled
deriving DecidableEq

/-- The EscrowInfo storage struct of Escrow.sol (string bookkeeping fields
and createdAt are omitted; none of the entry points branch on them). -/
structure EscrowInfo where
  maker : Nat
  taker : Nat
  secretHash : Nat
  timelock : Nat
  expectedAmount : Nat
  depositedAmount : Nat
  tokenAddress : Nat
  status : EscrowStatus
  srcConfirmed : Bool
  allowPartialFill : Bool
  filledAmount : Nat
  remainingAmount : Nat
  minimumFillAmount : Nat
deriving DecidableEq

/-- Escrow.depositETH, with msg.sender and msg.value explicit. -/
def depositETH (sender value : Nat) (s : EscrowInfo) :
    Except EscrowError EscrowInfo :=
  if sender ≠ s.taker then .error .Unauthorized
  else if s.status = .Withdrawn then .error .AlreadyWithdrawn
  else if s.status = .Cancelled then .error .AlreadyCancelled
  else
    if value ≠ s.expectedAmount then .error .InvalidAmount
    else if s.depositedAmount > 0 then .error .AlreadyWithdrawn
    else .ok { s with depositedAmount := value, remainingAmount := value,
                      tokenAddress := 0 }

/-- Escrow.depositToken (the ERC20 transferFrom is abstracted away; its
state effect on the escrow record is what is modelled). -/
def depositToken (sender tokenAddress amount : Nat) (s : EscrowInfo) :
    Except EscrowError EscrowInfo :=
  if sender ≠ s.taker then .error .Unauthorized
  else if s.status = .Withdrawn then .error .AlreadyWithdrawn
  else if s.status = .Cancelled then .error .AlreadyCancelled
  else
    if amount ≠ s.expectedAmount then .error .InvalidAmount
    else if s.depositedAmount > 0 then .error .AlreadyWithdrawn
    else .ok { s with depositedAmount := amount, remainingAmount := amount,
                      tokenAddress := tokenAddress }

/-- Escrow.withdraw.  keccak256 is the abstract hash parameter.  On
success the result carries the new state together with the transfer the
contract performs, as (recipient, amount). -/
def withdraw (hash : Nat → Nat) (sender secret : Nat) (s : EscrowInfo) :
    Except EscrowError (EscrowInfo × Nat × Nat) :=
  if sender ≠ s.maker then .error .Unauthorized
  else if s.status = .Withdrawn then .error .AlreadyWithdrawn
  else if s.status = .Cancelled then .error .AlreadyCancelled
  else
    if ¬ s.srcConfirmed then .error .SourceEscrowNotConfirmed
    else if hash secret ≠ s.secretHash then .error .InvalidSecret
    else
      let withdrawAmount :=
        if s.allowPartialFill then s.remainingAmount else s.depositedAmount
      .ok ({ s with status := .Withdrawn }, s.maker, withdrawAmount)

/-- Escrow.partialWithdraw, result as for withdraw. -/
def partialWithdraw (hash : Nat → Nat) (sender secret amount : Nat)
    (s : EscrowInfo) : Except EscrowError (EscrowInfo × Nat × Nat) :=
  if sender ≠ s.maker then .error .Unauthorized
  else if s.status = .Withdrawn then .error .AlreadyWithdrawn
  else if s.status = .Cancelled then .error .AlreadyCancelled
  else
    if ¬ s.allowPartialFill then .error .PartialFillNotAllowed
    else if ¬ s.srcConfirmed then .error .SourceEscrowNotConfirmed
    else if hash secret ≠ s.secretHash then .error .InvalidSecret
    else if amount > s.remainingAmount then .error .InsufficientFunds
    else if amount < s.minimumFillAmount ∧ s.minimumFillAmount > 0 then
      .error .InvalidPartialFillAmount
    else
      let s1 := { s with filledAmount := s.filledAmount + amount,
                         remainingAmount := s.remainingAmount - amount }
      let s2 := if s1.remainingAmount = 0 then
                  { s1 with status := .Withdrawn } else s1
      .ok (s2, s.maker, amount)

/-- Escrow.cancel, with block.timestamp explicit as now. -/
def cancel (now sender : Nat) (s : EscrowInfo) :
    Except EscrowError (EscrowInfo × Nat × Nat) :=
  if sender ≠ s.taker then .error .Unauthorized
  else if s.status = .Withdrawn then .error .AlreadyWithdrawn
  else if s.status = .Cancelled then .error .AlreadyCancelled
  else
    if now < s.timelock then .error .TimelockNotExpired
    else
      let returnAmount :=
        if s.remainingAmount > 0 then s.remainingAmount else s.depositedAmount
      .ok ({ s with status := .Cancelled }, s.taker, returnAmount)

/-- A maximal sequence of partialWithdraw calls that must all succeed;
none means some call in the list reverted. -/
def runPartialWithdraws (hash : Nat → Nat) (sender secret : Nat) :
    List Nat → EscrowInfo → Option EscrowInfo
  | [], s => some s
  | a :: rest, s =>
    match partialWithdraw hash sender secret a s with
    | .ok (s1, _, _) => runPartialWithdraws hash sender secret rest s1
    | .error _ => none

end Escrow

namespace Timelock

/-- Timelock.isExpired from Timelock.sol. -/
def isExpired (now timelock : Nat) : Bool :=
  now ≥ timelock

end Timelock

namespace DutchAuction

/-- The Order struct of DutchAuction.sol (resolver and claimed are not
read by getCurrentPrice but kept for fidelity). -/
structure Order where
  maker : Nat
  startPrice : Nat
  endPrice : Nat
  duration : Nat
  startTime : Nat
  resolver : Nat
  claimed : Bool
  active : Bool
deriving DecidableEq

/-- DutchAuction.getCurrentPrice with block.timestamp explicit; none
models the revert of the require on an inactive order. -/
def getCurrentPrice (o : Order) (now : Nat) : Option Nat :=
  if ¬ o.active then none
  else
    let elapsed := now - o.startTime
    if elapsed ≥ o.duration then some o.endPrice
    else
      let priceDiff := o.startPrice - o.endPrice
      let priceDecay := priceDiff * elapsed / o.duration
      some (o.startPrice - priceDecay)

end DutchAuction

namespace Relayer

/-- OrderStatus of the relayer order manager. -/
inductive OrderStatus where
  | pending
  | active
  | matched
  | completed
  | cancelled
  | expired
  | failed
deriving DecidableEq

/-- The fields of the relayer Order record that checkOrderTimeouts can
touch or that the claims mention; the sweep reads expiresAt and writes
status only, so the remaining fields stand in for all the others. -/
structure Order where
  id : Nat
  secret : Nat
  sourceTxHash : Nat
  expiresAt : Int
  status : OrderStatus
deriving DecidableEq

/-- OrderManager.checkOrderTimeouts: for every order of the activeOrders
map, if now.After(order.ExpiresAt) then its status is set to expired.
The Go code guards on nothing else. -/
def checkOrderTimeouts (now : Int) (activeOrders : List Order) : List Order :=
  activeOrders.map fun o =>
    if now > o.expiresAt then { o with status := .expired } else o

end Relayer

namespace Keeper

/-- The error values of x/htlc used by the keeper. -/
inductive HTLCError where
  | ErrHTLCNotFound
  | ErrHTLCClaimed
  | ErrHTLCRefunded
  | ErrInvalidPreimage
  | ErrUnauthorizedClaimer
  | ErrUnauthorizedRefunder
  | ErrHTLCExpired
  | ErrHTLCNotExpired
  | ErrInvalidHashLock
  | ErrInvalidTimeLock
  | ErrInsufficientFunds
deriving DecidableEq

/-- types.HTLC: hashLock is a byte string (List Nat), times are Int
Unix seconds, coin amounts a single Nat. -/
structure HTLC where
  id : Nat
  sender : Nat
  receiver : Nat
  amount : Nat
  hashLock : List Nat
  timeLock : Int
  claimed : Bool
  refunded : Bool
deriving DecidableEq

/-- The keeper view of chain state: the HTLC KV store, the next-id
counter, the module account balance and the user account balances. -/
structure KeeperState where
  store : List (Nat × HTLC)
  nextId : Nat
  moduleBal : Nat
  accounts : List (Nat × Nat)
deriving DecidableEq

/-- Keeper.GetHTLC over the association-list store. -/
def getHTLC (store : List (Nat × HTLC)) (id : Nat) : Option HTLC :=
  match store.find? (fun p => p.1 = id) with
  | some p => some p.2
  | none => none

/-- Keeper.SetHTLC: overwrite-or-append KV write keyed by htlc.id. -/
def setHTLC (store : List (Nat × HTLC)) (h : HTLC) : List (Nat × HTLC) :=
  if (store.find? (fun p => p.1 = h.id)).isSome then
    store.map (fun p => if p.1 = h.id then (h.id, h) else p)
  else store ++ [(h.id, h)]

/-- Balance lookup in the bank model (unknown accounts hold 0). -/
def getBal (accounts : List (Nat × Nat)) (a : Nat) : Nat :=
  match accounts.find? (fun p => p.1 = a) with
  | some p => p.2
  | none => 0

/-- Balance write in the bank model. -/
def setBal (accounts : List (Nat × Nat)) (a v : Nat) : List (Nat × Nat) :=
  if (accounts.find? (fun p => p.1 = a)).isSome then
    accounts.map (fun p => if p.1 = a then (a, v) else p)
  else accounts ++ [(a, v)]

/-- bankKeeper.SendCoinsFromAccountToModule: locks amount from sender. -/
def sendCoinsToModule (st : KeeperState) (sender amount : Nat) :
    Except HTLCError KeeperState :=
  if getBal st.accounts sender < amount then .error .ErrInsufficientFunds
  else .ok { st with
    accounts := setBal st.accounts sender (getBal st.accounts sender - amount),
    moduleBal := st.moduleBal + amount }

/-- bankKeeper.SendCoinsFromModuleToAccount: releases amount. -/
def sendCoinsFromModule (st : KeeperState) (recipient amount : Nat) :
    Except HTLCError KeeperState :=
  if st.moduleBal < amount then .error .ErrInsufficientFunds
  else .ok { st with
    moduleBal := st.moduleBal - amount,
    accounts := setBal st.accounts recipient (getBal st.accounts recipient + amount) }

/-- Keeper.SetHTLC lifted to the whole keeper state. -/
def setKeeperHTLC (st : KeeperState) (h : HTLC) : KeeperState :=
  { st with store := setHTLC st.store h }

/-- Keeper.CreateHTLC with ctx.BlockTime() explicit as now. -/
def CreateHTLC (now : Int) (sender receiver amount : Nat)
    (hashLock : List Nat) (timeLock : Int) (st : KeeperState) :
    Except HTLCError (Nat × KeeperState) :=
  if hashLock.length ≠ 32 then .error .ErrInvalidHashLock
  else if timeLock ≤ now then .error .ErrInvalidTimeLock
  else match sendCoinsToModule st sender amount with
  | .error e => .error e
  | .ok st1 =>
    let id := st1.nextId
    let htlc : HTLC :=
      { id := id, sender := sender, receiver := receiver, amount := amount,
        hashLock := hashLock, timeLock := timeLock,
        claimed := false, refunded := false }
    .ok (id, { setKeeperHTLC st1 htlc with nextId := id + 1 })

/-- Keeper.ClaimHTLC; sha is the abstract sha256 and now the block time.
The expiry check mirrors ctx.BlockTime().After(htlc.TimeLock): the claim
is rejected only when now is strictly later than the timelock. -/
def ClaimHTLC (sha : List Nat → List Nat) (now : Int) (id : Nat)
    (preimage : List Nat) (claimer : Nat) (st : KeeperState) :
    Except HTLCError KeeperState :=
  match getHTLC st.store id with
  | none => .error .ErrHTLCNotFound
  | some htlc =>
    if htlc.claimed then .error .ErrHTLCClaimed
    else if htlc.refunded then .error .ErrHTLCRefunded
    else if sha preimage ≠ htlc.hashLock then .error .ErrInvalidPreimage
    else if claimer ≠ htlc.receiver then .error .ErrUnauthorizedClaimer
    else if htlc.timeLock < now then .error .ErrHTLCExpired
    else
      sendCoinsFromModule (setKeeperHTLC st { htlc with claimed := true })
        htlc.receiver htlc.amount

/-- Keeper.RefundHTLC; the not-expired check mirrors
ctx.BlockTime().Before(htlc.TimeLock). -/
def RefundHTLC (now : Int) (id : Nat) (refunder : Nat) (st : KeeperState) :
    Except HTLCError KeeperState :=
  match getHTLC st.store id with
  | none => .error .ErrHTLCNotFound
  | some htlc =>
    if htlc.claimed then .error .ErrHTLCClaimed
    else if htlc.refunded then .error .ErrHTLCRefunded
    else if refunder ≠ htlc.sender then .error .ErrUnauthorizedRefunder
    else if now < htlc.timeLock then .error .ErrHTLCNotExpired
    else
      sendCoinsFromModule (setKeeperHTLC st { htlc with refunded := true })
        htlc.sender htlc.amount

/-- One keeper message, with its block time attached. -/
inductive KOp where
  | create (now : Int) (sender receiver amount : Nat)
      (hashLock : List Nat) (timeLock : Int)
  | claim (now : Int) (id : Nat) (preimage : List Nat) (claimer : Nat)
  | refund (now : Int) (id : Nat) (refunder : Nat)

/-- Message delivery with Cosmos rollback semantics: a failed message
leaves the state exactly as it was. -/
def applyKOp (sha : List Nat → List Nat) (op : KOp) (st : KeeperState) :
    KeeperState :=
  match op with
  | .create now s r a hl tl =>
    match CreateHTLC now s r a hl tl st with
    | .ok (_, st1) => st1
    | .error _ => st
  | .claim now id p c =>
    match ClaimHTLC sha now id p c st with
    | .ok st1 => st1
    | .error _ => st
  | .refund now id r =>
    match RefundHTLC now id r st with
    | .ok st1 => st1
    | .error _ => st

/-- A whole sequence of keeper messages. -/
def runKOps (sha : List Nat → List Nat) (ops : List KOp) (st : KeeperState) :
    KeeperState :=
  ops.foldl (fun s op => applyKOp sha op s) st

/-- No stored HTLC is flagged both claimed and refunded. -/
def NotBothFlags (store : List (Nat × HTLC)) : Prop :=
  ∀ p ∈ store, ¬(p.2.claimed = true ∧ p.2.refunded = true)

instance (store : List (Nat × HTLC)) : Decidable (NotBothFlags store) := by
  unfold NotBothFlags
  infer_instance

end Keeper

/-! Concrete fixtures used by counterexamples and witnesses. -/

/-- Identity hash standing in for the abstract digest function in
concrete instances. -/
def idHash : Nat → Nat := fun n => n

/-- Identity digest for the keeper side. -/
def idSha : List Nat → List Nat := fun l => l

/-- A funded, source-confirmed, non-partial escrow whose timelock (0) has
already passed at every block time. -/
def c1Escrow : Escrow.EscrowInfo :=
  { maker := 1, taker := 2, secretHash := 42, timelock := 0,
    expectedAmount := 100, depositedAmount := 100, tokenAddress := 0,
    status := .Active, srcConfirmed := true, allowPartialFill := false,
    filledAmount := 0, remainingAmount := 100, minimumFillAmount := 0 }

/-- A claimable HTLC whose timelock is exactly 5. -/
def c1HTLC : Keeper.HTLC :=
  { id := 1, sender := 2, receiver := 3, amount := 10,
    hashLock := List.replicate 32 7, timeLock := 5,
    claimed := false, refunded := false }

/-- Keeper state holding c1HTLC with the module funded to cover it. -/
def c1KState : Keeper.KeeperState :=
  { store := [(1, c1HTLC)], nextId := 2, moduleBal := 10,
    accounts := [(2, 90), (3, 0)] }

/-- The scenario escrow of the spec: expectedAmount 100, partial fills
allowed, minimum fill 10, fully funded. -/
def c2Escrow : Escrow.EscrowInfo :=
  { maker := 1, taker := 2, secretHash := 42, timelock := 1000,
    expectedAmount := 100, depositedAmount := 100, tokenAddress := 0,
    status := .Active, srcConfirmed := true, allowPartialFill := true,
    filledAmount := 0, remainingAmount := 100, minimumFillAmount := 10 }

/-- The end state of the spec scenario: 60 then 40 withdrawn. -/
def c2Final : Escrow.EscrowInfo :=
  { c2Escrow with filledAmount := 100, remainingAmount := 0,
                  status := .Withdrawn }

/-- A partial-fill escrow with 5 remaining, below its minimum fill of 10. -/
def c5Escrow : Escrow.EscrowInfo :=
  { maker := 1, taker := 2, secretHash := 42, timelock := 1000,
    expectedAmount := 100, depositedAmount := 100, tokenAddress := 0,
    status := .Active, srcConfirmed := true, allowPartialFill := true,
    filledAmount := 95, remainingAmount := 5, minimumFillAmount := 10 }

/-- An unfunded partial-fill escrow: expectedAmount 100, minimum fill 10. -/
def c6Escrow : Escrow.EscrowInfo :=
  { maker := 1, taker := 2, secretHash := 42, timelock := 1000,
    expectedAmount := 100, depositedAmount := 0, tokenAddress := 0,
    status := .Active, srcConfirmed := false, allowPartialFill := true,
    filledAmount := 0, remainingAmount := 0, minimumFillAmount := 10 }

/-- A partially claimed escrow (40 of 100 remaining) with timelock 1000. -/
def c7Escrow : Escrow.EscrowInfo :=
  { maker := 1, taker := 2, secretHash := 42, timelock := 1000,
    expectedAmount := 100, depositedAmount := 100, tokenAddress := 0,
    status := .Active, srcConfirmed := true, allowPartialFill := true,
    filledAmount := 60, remainingAmount := 40, minimumFillAmount := 10 }

/-- The spec scenario auction: startPrice 1000, endPrice 100, duration
100 seconds, started at time 0. -/
def c3Order : DutchAuction.Order :=
  { maker := 1, startPrice := 1000, endPrice := 100, duration := 100,
    startTime := 0, resolver := 0, claimed := false, active := true }

/-- A matched relayer order whose expiry (10) has passed at time 11. -/
def c8Order : Relayer.Order :=
  { id := 7, secret := 5, sourceTxHash := 3, expiresAt := 10,
    status := .matched }

/-- An HTLC that has already been refunded. -/
def c9HTLC : Keeper.HTLC :=
  { id := 1, sender := 2, receiver := 3, amount := 10,
    hashLock := List.replicate 32 7, timeLock := 5,
    claimed := false, refunded := true }

/-- Keeper state holding the refunded c9HTLC. -/
def c9KState : Keeper.KeeperState :=
  { store := [(1, c9HTLC)], nextId := 2, moduleBal := 0,
    accounts := [(2, 100), (3, 0)] }

end CosmosSwap


namespace CosmosSwap

namespace Escrow

/-- Inversion facts for a successful partialWithdraw call. -/
theorem partialWithdraw_ok_facts {hash : Nat → Nat} {sender secret a : Nat}
    {s s1 : EscrowInfo} {r amt : Nat}
    (h : partialWithdraw hash sender secret a s = .ok (s1, r, amt)) :
    sender = s.maker ∧ s.status = .Active ∧ a ≤ s.remainingAmount ∧
    s1.filledAmount = s.filledAmount + a ∧
    s1.remainingAmount = s.remainingAmount - a ∧
    s1.depositedAmount = s.depositedAmount ∧
    s1.maker = s.maker ∧
    (s1.remainingAmount = 0 → s1.status = .Withdrawn) := by
  simp only [partialWithdraw] at h
  split_ifs at h with h1 h2 h3 h4 h5 h6 h7 h8 h9 <;>
    simp only [Except.ok.injEq, Prod.mk.injEq] at h
  · obtain ⟨hst, hr, hamt⟩ := h
    have hA : s.status = .Active := by
      cases hstat : s.status
      · rfl
      · exact absurd hstat h2
      · exact absurd hstat h3
    subst hst
    subst hamt
    refine ⟨by omega, hA, by omega, by simp, by simp, by simp, by simp, ?_⟩
    intro _
    simp
  · obtain ⟨hst, hr, hamt⟩ := h
    have hA : s.status = .Active := by
      cases hstat : s.status
      · rfl
      · exact absurd hstat h2
      · exact absurd hstat h3
    subst hst
    subst hamt
    refine ⟨by omega, hA, by omega, by simp, by simp, by simp, by simp, ?_⟩
    intro hz
    simp at hz
    exact absurd hz h9

end Escrow

end CosmosSwap

namespace CosmosSwap

namespace Escrow

/-- partialWithdraw by the maker on an already fully withdrawn escrow
reverts with AlreadyWithdrawn via the onlyActive modifier. -/
theorem partialWithdraw_withdrawn {hash : Nat → Nat} {sender secret a : Nat}
    {s : EscrowInfo} (hm : sender = s.maker) (hs : s.status = .Withdrawn) :
    partialWithdraw hash sender secret a s = .error .AlreadyWithdrawn := by
  unfold partialWithdraw
  rw [if_neg (by simp [hm]), if_pos hs]

/-- A successful partialWithdraw call requires an Active escrow. -/
theorem partialWithdraw_active {hash : Nat → Nat} {sender secret a : Nat}
    {s s1 : EscrowInfo} {r amt : Nat}
    (h : partialWithdraw hash sender secret a s = .ok (s1, r, amt)) :
    s.status = .Active :=
  (partialWithdraw_ok_facts h).2.1

/-- Accumulated facts over a successful sequence of partialWithdraw calls. -/
theorem runPartialWithdraws_facts (hash : Nat → Nat) (sender secret : Nat) :
    ∀ (amts : List Nat) (s s1 : EscrowInfo),
      runPartialWithdraws hash sender secret amts s = some s1 →
      s1.filledAmount = s.filledAmount + amts.sum ∧
      (s.filledAmount + s.remainingAmount = s.depositedAmount →
        s1.filledAmount + s1.remainingAmount = s1.depositedAmount) ∧
      s1.depositedAmount = s.depositedAmount ∧
      s1.maker = s.maker ∧
      (s1.remainingAmount = 0 →
        s.remainingAmount = 0 ∨ (sender = s.maker ∧ s1.status = .Withdrawn))
  | [], s, s1, h => by
    simp only [runPartialWithdraws, Option.some.injEq] at h
    subst h
    exact ⟨by simp, fun hb => hb, rfl, rfl, fun hz => Or.inl hz⟩
  | a :: rest, s, s1, h => by
    simp only [runPartialWithdraws] at h
    cases hpw : partialWithdraw hash sender secret a s with
    | error e => rw [hpw] at h; simp at h
    | ok v =>
      obtain ⟨s2, r, amt⟩ := v
      rw [hpw] at h
      obtain ⟨hm, hA, hle, hfill, hrem, hdep, hmak, hwz⟩ :=
        partialWithdraw_ok_facts hpw
      obtain ⟨ih1, ih2, ih3, ih4, ih5⟩ :=
        runPartialWithdraws_facts hash sender secret rest s2 s1 h
      refine ⟨by rw [ih1, hfill, List.sum_cons]; omega, ?_, by omega, by omega, ?_⟩
      · intro hb
        exact ih2 (by omega)
      · intro hz
        rcases ih5 hz with hz2 | ⟨hsm, hw⟩
        · have hw2 : s2.status = .Withdrawn := hwz hz2
          cases rest with
          | nil =>
            simp only [runPartialWithdraws, Option.some.injEq] at h
            subst h
            exact Or.inr ⟨hm, hw2⟩
          | cons b bs =>
            simp only [runPartialWithdraws] at h
            cases hpw2 : partialWithdraw hash sender secret b s2 with
            | error e => rw [hpw2] at h; simp at h
            | ok v2 =>
              obtain ⟨s3, r2, a2⟩ := v2
              have : s2.status = .Active := partialWithdraw_active hpw2
              rw [hw2] at this
              exact absurd this (by simp)
        · exact Or.inr ⟨hm, hw⟩

end Escrow

end CosmosSwap

namespace CosmosSwap

namespace Escrow

/-- Inversion facts for a successful depositETH. -/
theorem depositETH_ok_facts {sender value : Nat} {s s1 : EscrowInfo}
    (h : depositETH sender value s = .ok s1) :
    sender = s.taker ∧ s.status = .Active ∧ s.depositedAmount = 0 ∧
    value = s.expectedAmount ∧ s1.depositedAmount = value ∧
    s1.remainingAmount = value := by
  simp only [depositETH] at h
  split_ifs at h with h1 h2 h3 h4 h5
  simp only [Except.ok.injEq] at h
  subst h
  have hA : s.status = .Active := by
    cases hstat : s.status
    · rfl
    · exact absurd hstat h2
    · exact absurd hstat h3
  exact ⟨by omega, hA, by omega, by omega, by simp, by simp⟩

/-- Inversion facts for a successful cancel. -/
theorem cancel_ok_facts {now sender : Nat} {s s1 : EscrowInfo} {rcp amt : Nat}
    (h : cancel now sender s = .ok (s1, rcp, amt)) :
    sender = s.taker ∧ s.status = .Active ∧ s.timelock ≤ now ∧
    s1.status = .Cancelled ∧ rcp = s.taker ∧
    amt = (if 0 < s.remainingAmount then s.remainingAmount
           else s.depositedAmount) := by
  simp only [cancel] at h
  split_ifs at h with h1 h2 h3 h4 h5 <;>
    simp only [Except.ok.injEq, Prod.mk.injEq] at h
  all_goals
    obtain ⟨hst, hr, hamt⟩ := h
  all_goals
    subst hst
  all_goals
    have hA : s.status = .Active := by
      cases hstat : s.status
      · rfl
      · exact absurd hstat h2
      · exact absurd hstat h3
  all_goals
    refine ⟨by omega, hA, by omega, by simp, by omega, ?_⟩
  all_goals
    subst hamt
  · rw [if_pos h5]
  · rw [if_neg h5]

end Escrow

end CosmosSwap

namespace CosmosSwap

namespace Keeper

/-- ClaimHTLC reduced once the HTLC lookup result is known. -/
theorem ClaimHTLC_some {sha : List Nat → List Nat} {now : Int} {id : Nat}
    {preimage : List Nat} {claimer : Nat} {st : KeeperState} {h : HTLC}
    (hget : getHTLC st.store id = some h) :
    ClaimHTLC sha now id preimage claimer st =
      (if h.claimed then .error .ErrHTLCClaimed
       else if h.refunded then .error .ErrHTLCRefunded
       else if sha preimage ≠ h.hashLock then .error .ErrInvalidPreimage
       else if claimer ≠ h.receiver then .error .ErrUnauthorizedClaimer
       else if h.timeLock < now then .error .ErrHTLCExpired
       else sendCoinsFromModule (setKeeperHTLC st { h with claimed := true })
              h.receiver h.amount) := by
  unfold ClaimHTLC
  rw [hget]

/-- RefundHTLC reduced once the HTLC lookup result is known. -/
theorem RefundHTLC_some {now : Int} {id : Nat} {refunder : Nat}
    {st : KeeperState} {h : HTLC}
    (hget : getHTLC st.store id = some h) :
    RefundHTLC now id refunder st =
      (if h.claimed then .error .ErrHTLCClaimed
       else if h.refunded then .error .ErrHTLCRefunded
       else if refunder ≠ h.sender then .error .ErrUnauthorizedRefunder
       else if now < h.timeLock then .error .ErrHTLCNotExpired
       else sendCoinsFromModule (setKeeperHTLC st { h with refunded := true })
              h.sender h.amount) := by
  unfold RefundHTLC
  rw [hget]

/-- A successful module payout does not touch the HTLC store. -/
theorem sendCoinsFromModule_store {st st1 : KeeperState} {r a : Nat}
    (h : sendCoinsFromModule st r a = .ok st1) : st1.store = st.store := by
  unfold sendCoinsFromModule at h
  split_ifs at h with hc
  simp only [Except.ok.injEq] at h
  rw [← h]

/-- A successful lock into the module does not touch the HTLC store. -/
theorem sendCoinsToModule_store {st st1 : KeeperState} {snd a : Nat}
    (h : sendCoinsToModule st snd a = .ok st1) : st1.store = st.store := by
  unfold sendCoinsToModule at h
  split_ifs at h with hc
  simp only [Except.ok.injEq] at h
  rw [← h]

end Keeper

end CosmosSwap

namespace CosmosSwap

namespace Keeper

/-- The store after a successful CreateHTLC: one fresh record written,
with both settlement flags clear. -/
theorem CreateHTLC_ok_store {now : Int} {sender receiver amount : Nat}
    {hashLock : List Nat} {timeLock : Int} {st : KeeperState}
    {idv : Nat} {st1 : KeeperState}
    (h : CreateHTLC now sender receiver amount hashLock timeLock st =
      .ok (idv, st1)) :
    ∃ htlc : HTLC, htlc.claimed = false ∧ htlc.refunded = false ∧
      st1.store = setHTLC st.store htlc := by
  unfold CreateHTLC at h
  split_ifs at h with h1 h2
  cases hs : sendCoinsToModule st sender amount with
  | error e => rw [hs] at h; simp at h
  | ok stMid =>
    rw [hs] at h
    simp only [Except.ok.injEq, Prod.mk.injEq] at h
    obtain ⟨hid, hst⟩ := h
    refine ⟨{ id := stMid.nextId, sender := sender, receiver := receiver,
              amount := amount, hashLock := hashLock, timeLock := timeLock,
              claimed := false, refunded := false }, rfl, rfl, ?_⟩
    rw [← hst]
    simp only [setKeeperHTLC]
    rw [sendCoinsToModule_store hs]

/-- The store after a successful ClaimHTLC: the stored record with the
claimed flag raised, and that record was neither claimed nor refunded. -/
theorem ClaimHTLC_ok_store {sha : List Nat → List Nat} {now : Int} {id : Nat}
    {preimage : List Nat} {claimer : Nat} {st st1 : KeeperState}
    (h : ClaimHTLC sha now id preimage claimer st = .ok st1) :
    ∃ htlc : HTLC, getHTLC st.store id = some htlc ∧
      htlc.claimed = false ∧ htlc.refunded = false ∧
      claimer = htlc.receiver ∧
      st1.store = setHTLC st.store { htlc with claimed := true } := by
  cases hget : getHTLC st.store id with
  | none => unfold ClaimHTLC at h; rw [hget] at h; simp at h
  | some htlc =>
    rw [ClaimHTLC_some hget] at h
    split_ifs at h with h1 h2 h3 h4 h5
    refine ⟨htlc, rfl, by simpa using h1, by simpa using h2,
      by simpa using h4, ?_⟩
    rw [sendCoinsFromModule_store h]
    rfl

/-- The store after a successful RefundHTLC. -/
theorem RefundHTLC_ok_store {now : Int} {id : Nat} {refunder : Nat}
    {st st1 : KeeperState}
    (h : RefundHTLC now id refunder st = .ok st1) :
    ∃ htlc : HTLC, getHTLC st.store id = some htlc ∧
      htlc.claimed = false ∧ htlc.refunded = false ∧
      refunder = htlc.sender ∧
      st1.store = setHTLC st.store { htlc with refunded := true } := by
  cases hget : getHTLC st.store id with
  | none => unfold RefundHTLC at h; rw [hget] at h; simp at h
  | some htlc =>
    rw [RefundHTLC_some hget] at h
    split_ifs at h with h1 h2 h3 h4
    refine ⟨htlc, rfl, by simpa using h1, by simpa using h2,
      by simpa using h3, ?_⟩
    rw [sendCoinsFromModule_store h]
    rfl

/-- Writing a record that is not both claimed and refunded preserves the
store invariant. -/
theorem NotBothFlags_setHTLC {store : List (Nat × HTLC)} {h : HTLC}
    (hinv : NotBothFlags store)
    (hh : ¬(h.claimed = true ∧ h.refunded = true)) :
    NotBothFlags (setHTLC store h) := by
  intro p hp
  unfold setHTLC at hp
  by_cases hc : (store.find? (fun q => q.1 = h.id)).isSome
  · rw [if_pos hc] at hp
    rcases List.mem_map.mp hp with ⟨q, hq, hfq⟩
    by_cases hqid : q.1 = h.id
    · rw [if_pos hqid] at hfq
      rw [← hfq]
      exact hh
    · rw [if_neg hqid] at hfq
      rw [← hfq]
      exact hinv q hq
  · rw [if_neg hc] at hp
    rcases List.mem_append.mp hp with hq | hq
    · exact hinv p hq
    · simp only [List.mem_singleton] at hq
      rw [hq]
      exact hh

/-- Every keeper message preserves the exclusivity invariant. -/
theorem NotBothFlags_applyKOp {sha : List Nat → List Nat} {op : KOp}
    {st : KeeperState} (hinv : NotBothFlags st.store) :
    NotBothFlags (applyKOp sha op st).store := by
  cases op with
  | create now s r a hl tl =>
    show NotBothFlags (match CreateHTLC now s r a hl tl st with
      | Except.ok (_, st1) => st1
      | Except.error _ => st).store
    cases hc : CreateHTLC now s r a hl tl st with
    | error e => exact hinv
    | ok v =>
      obtain ⟨idv, st1⟩ := v
      obtain ⟨htlc, hcl, hrf, hstore⟩ := CreateHTLC_ok_store hc
      show NotBothFlags st1.store
      rw [hstore]
      exact NotBothFlags_setHTLC hinv (by simp [hcl, hrf])
  | claim now id p c =>
    show NotBothFlags (match ClaimHTLC sha now id p c st with
      | Except.ok st1 => st1
      | Except.error _ => st).store
    cases hc : ClaimHTLC sha now id p c st with
    | error e => exact hinv
    | ok st1 =>
      obtain ⟨htlc, hget, hcl, hrf, hrecv, hstore⟩ := ClaimHTLC_ok_store hc
      show NotBothFlags st1.store
      rw [hstore]
      exact NotBothFlags_setHTLC hinv (by simp [hrf])
  | refund now id r =>
    show NotBothFlags (match RefundHTLC now id r st with
      | Except.ok st1 => st1
      | Except.error _ => st).store
    cases hc : RefundHTLC now id r st with
    | error e => exact hinv
    | ok st1 =>
      obtain ⟨htlc, hget, hcl, hrf, hsend, hstore⟩ := RefundHTLC_ok_store hc
      show NotBothFlags st1.store
      rw [hstore]
      exact NotBothFlags_setHTLC hinv (by simp [hcl])

/-- Whole message sequences preserve the exclusivity invariant. -/
theorem NotBothFlags_runKOps (sha : List Nat → List Nat) (ops : List KOp) :
    ∀ st : KeeperState, NotBothFlags st.store →
      NotBothFlags (runKOps sha ops st).store := by
  induction ops with
  | nil => intro st h; exact h
  | cons op rest ih =>
    intro st h
    rw [runKOps, List.foldl_cons]
    exact ih _ (NotBothFlags_applyKOp h)

end Keeper

end CosmosSwap

namespace CosmosSwap

open Escrow DutchAuction Keeper

/-- Claim C1 as stated is false at this concrete escrow: with the timelock
(0) already passed, withdraw succeeds instead of failing with a
timelock-expired error, and the successful result leaves remainingAmount
at 100 rather than setting it to 0; moreover the keeper ClaimHTLC accepts
a claim at a block time exactly equal to the timelock. -/
theorem c1_no_timelock_check_counterexample :
    Escrow.withdraw idHash 1 42 c1Escrow =
      .ok ({ c1Escrow with status := .Withdrawn }, 1, 100) ∧
    ({ c1Escrow with status := .Withdrawn } : EscrowInfo).remainingAmount = 100 ∧
    c1Escrow.timelock = 0 ∧ c1Escrow.srcConfirmed = true ∧
    (Keeper.ClaimHTLC idSha 5 1 (List.replicate 32 7) 3
        c1KState).toOption.isSome = true ∧
    c1HTLC.timeLock = 5 := by decide

/-- Claim C1 amended: on a source-confirmed Active escrow, withdraw fails
with InvalidSecret exactly when the hash check fails; it consults no clock,
so it also succeeds at or after the timelock, moving the escrow to
Withdrawn and transferring remainingAmount (partial-fill) or
depositedAmount (otherwise) to the maker while leaving the stored
remainingAmount unchanged; on the Cosmos side ClaimHTLC rejects a claim as
expired only when the block time is strictly past the timelock, and
accepts it at a block time equal to the timelock. -/
theorem c1_withdraw_amended (hash : Nat → Nat) (sender secret : Nat)
    (s : EscrowInfo) (hm : sender = s.maker) (ha : s.status = .Active)
    (hc : s.srcConfirmed = true) :
    (hash secret ≠ s.secretHash →
      withdraw hash sender secret s = .error .InvalidSecret) ∧
    (hash secret = s.secretHash →
      withdraw hash sender secret s =
        .ok ({ s with status := .Withdrawn }, s.maker,
          if s.allowPartialFill then s.remainingAmount
          else s.depositedAmount) ∧
      ({ s with status := .Withdrawn } : EscrowInfo).remainingAmount =
        s.remainingAmount) ∧
    (∀ (sha : List Nat → List Nat) (now : Int) (id claimer : Nat)
        (preimage : List Nat) (st : KeeperState) (h : HTLC),
      getHTLC st.store id = some h → h.claimed = false →
      h.refunded = false → sha preimage = h.hashLock →
      claimer = h.receiver →
      (h.timeLock < now →
        ClaimHTLC sha now id preimage claimer st =
          .error .ErrHTLCExpired) ∧
      (now ≤ h.timeLock →
        ClaimHTLC sha now id preimage claimer st =
          sendCoinsFromModule (setKeeperHTLC st { h with claimed := true })
            h.receiver h.amount)) := by
  refine ⟨?_, ?_, ?_⟩
  · intro hne
    unfold withdraw
    rw [if_neg (by simp [hm]), if_neg (by simp [ha]), if_neg (by simp [ha]),
        if_neg (by simp [hc]), if_pos hne]
  · intro heq
    constructor
    · unfold withdraw
      rw [if_neg (by simp [hm]), if_neg (by simp [ha]), if_neg (by simp [ha]),
          if_neg (by simp [hc]), if_neg (by simp [heq])]
    · simp
  · intro sha now id claimer preimage st h hget hcl href hsha hclm
    constructor
    · intro hlt
      rw [ClaimHTLC_some hget, if_neg (by simp [hcl]), if_neg (by simp [href]),
          if_neg (by simp [hsha]), if_neg (by simp [hclm]), if_pos hlt]
    · intro hle
      rw [ClaimHTLC_some hget, if_neg (by simp [hcl]), if_neg (by simp [href]),
          if_neg (by simp [hsha]), if_neg (by simp [hclm]),
          if_neg (by omega)]

/-- Claim C2: starting from a freshly funded escrow (nothing filled,
remainingAmount equal to the positive depositedAmount), every successful
sequence of partialWithdraw calls keeps filledAmount equal to the sum of
the withdrawn amounts and filledAmount + remainingAmount equal to
depositedAmount, and once remainingAmount reaches 0 the status is
Withdrawn and every further partialWithdraw of any amount fails with
AlreadyWithdrawn. -/
theorem c2_partial_fill_accounting (hash : Nat → Nat) (sender secret : Nat)
    (amts : List Nat) (s s1 : EscrowInfo)
    (hfill : s.filledAmount = 0)
    (hrem : s.remainingAmount = s.depositedAmount)
    (hdep : 0 < s.depositedAmount)
    (hrun : runPartialWithdraws hash sender secret amts s = some s1) :
    s1.filledAmount = amts.sum ∧
    s1.filledAmount + s1.remainingAmount = s1.depositedAmount ∧
    (s1.remainingAmount = 0 →
      s1.status = .Withdrawn ∧
      ∀ b, partialWithdraw hash sender secret b s1 =
        .error .AlreadyWithdrawn) := by
  obtain ⟨h1, h2, h3, h4, h5⟩ :=
    runPartialWithdraws_facts hash sender secret amts s s1 hrun
  refine ⟨by omega, h2 (by omega), ?_⟩
  intro hz
  rcases h5 hz with hz0 | ⟨hsm, hw⟩
  · omega
  · refine ⟨hw, fun b => partialWithdraw_withdrawn ?_ hw⟩
    rw [h4]
    exact hsm

/-- Claim C5 as stated is false at this concrete escrow: the request
amount 5 exactly equals remainingAmount yet is below minimumFillAmount 10,
and partialWithdraw rejects it with InvalidPartialFillAmount instead of
accepting it; there is no exact-remainder exception in the code. -/
theorem c5_exact_remainder_counterexample :
    Escrow.partialWithdraw idHash 1 42 5 c5Escrow =
      .error .InvalidPartialFillAmount ∧
    c5Escrow.remainingAmount = 5 ∧ c5Escrow.minimumFillAmount = 10 ∧
    c5Escrow.allowPartialFill = true ∧ c5Escrow.srcConfirmed = true ∧
    c5Escrow.status = .Active ∧ idHash 42 = c5Escrow.secretHash ∧
    (1 : Nat) = c5Escrow.maker := by decide

/-- Claim C5 amended: with the maker calling on an Active, partial-fill,
source-confirmed escrow with a correct secret, partialWithdraw fails with
InsufficientFunds (the InsufficientRemaining of the spec) whenever the
amount exceeds remainingAmount, fails with InvalidPartialFillAmount (the
BelowMinimumFill of the spec) whenever the amount is below a positive
minimumFillAmount — including when the amount exactly equals
remainingAmount, with no exact-remainder exception — and otherwise
succeeds, decrementing remainingAmount by exactly the requested amount,
never clamping it. -/
theorem c5_partial_checks_amended (hash : Nat → Nat)
    (sender secret amount : Nat) (s : EscrowInfo)
    (hm : sender = s.maker) (ha : s.status = .Active)
    (hp : s.allowPartialFill = true) (hc : s.srcConfirmed = true)
    (hh : hash secret = s.secretHash) :
    (s.remainingAmount < amount →
      partialWithdraw hash sender secret amount s =
        .error .InsufficientFunds) ∧
    (amount < s.minimumFillAmount → 0 < s.minimumFillAmount →
      amount ≤ s.remainingAmount →
      partialWithdraw hash sender secret amount s =
        .error .InvalidPartialFillAmount) ∧
    (amount ≤ s.remainingAmount →
      (s.minimumFillAmount ≤ amount ∨ s.minimumFillAmount = 0) →
      partialWithdraw hash sender secret amount s =
        .ok (if s.remainingAmount - amount = 0 then
               { s with filledAmount := s.filledAmount + amount,
                        remainingAmount := s.remainingAmount - amount,
                        status := .Withdrawn }
             else
               { s with filledAmount := s.filledAmount + amount,
                        remainingAmount := s.remainingAmount - amount },
             s.maker, amount)) := by
  refine ⟨?_, ?_, ?_⟩
  · intro hgt
    unfold partialWithdraw
    rw [if_neg (by simp [hm]), if_neg (by simp [ha]), if_neg (by simp [ha]),
        if_neg (by simp [hp]), if_neg (by simp [hc]), if_neg (by simp [hh]),
        if_pos hgt]
  · intro hlt hpos hle
    unfold partialWithdraw
    rw [if_neg (by simp [hm]), if_neg (by simp [ha]), if_neg (by simp [ha]),
        if_neg (by simp [hp]), if_neg (by simp [hc]), if_neg (by simp [hh]),
        if_neg (by omega), if_pos ⟨hlt, hpos⟩]
  · intro hle hmin
    unfold partialWithdraw
    rw [if_neg (by simp [hm]), if_neg (by simp [ha]), if_neg (by simp [ha]),
        if_neg (by simp [hp]), if_neg (by simp [hc]), if_neg (by simp [hh]),
        if_neg (by omega), if_neg (by rcases hmin with hm2 | hm2 <;> omega)]

end CosmosSwap

namespace CosmosSwap

open Escrow Keeper

/-- Claim C6 as stated is false at this concrete escrow: it allows partial
fills with minimumFillAmount 10, it is unfunded and Active, and the taker
deposits 50 (at least the minimum fill, different from expectedAmount
100); the claim calls this funding legal, but depositETH rejects it with
InvalidAmount. -/
theorem c6_fund_counterexample :
    Escrow.depositETH 2 50 c6Escrow = .error .InvalidAmount ∧
    c6Escrow.allowPartialFill = true ∧ c6Escrow.minimumFillAmount = 10 ∧
    c6Escrow.minimumFillAmount ≤ 50 ∧ c6Escrow.expectedAmount = 100 ∧
    c6Escrow.status = .Active ∧ c6Escrow.depositedAmount = 0 ∧
    (2 : Nat) = c6Escrow.taker := by decide

/-- Claim C6 amended: funding (depositETH or depositToken) is legal only
for the taker on an Active, not-yet-funded escrow, and requires the amount
to equal expectedAmount for every escrow, whether or not it allows partial
fills — minimumFillAmount is never consulted; a violating amount is
rejected with InvalidAmount, and on success depositedAmount and
remainingAmount are both set to the deposited amount (the contract keeps
status Active and tracks funded-ness through depositedAmount). -/
theorem c6_fund_amended (sender value tokenAddr : Nat) (s : EscrowInfo)
    (hm : sender = s.taker) (ha : s.status = .Active)
    (hd : s.depositedAmount = 0) :
    (value ≠ s.expectedAmount →
      depositETH sender value s = .error .InvalidAmount ∧
      depositToken sender tokenAddr value s = .error .InvalidAmount) ∧
    (value = s.expectedAmount →
      depositETH sender value s =
        .ok { s with depositedAmount := value, remainingAmount := value,
                     tokenAddress := 0 } ∧
      depositToken sender tokenAddr value s =
        .ok { s with depositedAmount := value, remainingAmount := value,
                     tokenAddress := tokenAddr }) ∧
    (∀ (w v : Nat) (t u : EscrowInfo), depositETH w v t = .ok u →
      w = t.taker ∧ t.status = .Active ∧ t.depositedAmount = 0 ∧
      v = t.expectedAmount ∧ u.depositedAmount = v ∧
      u.remainingAmount = v) := by
  refine ⟨?_, ?_, ?_⟩
  · intro hne
    constructor
    · unfold depositETH
      rw [if_neg (by simp [hm]), if_neg (by simp [ha]), if_neg (by simp [ha]),
          if_pos hne]
    · unfold depositToken
      rw [if_neg (by simp [hm]), if_neg (by simp [ha]), if_neg (by simp [ha]),
          if_pos hne]
  · intro heq
    constructor
    · unfold depositETH
      rw [if_neg (by simp [hm]), if_neg (by simp [ha]), if_neg (by simp [ha]),
          if_neg (by simp [heq]), if_neg (by omega)]
    · unfold depositToken
      rw [if_neg (by simp [hm]), if_neg (by simp [ha]), if_neg (by simp [ha]),
          if_neg (by simp [heq]), if_neg (by omega)]
  · intro w v t u h
    exact depositETH_ok_facts h

/-- Claim C7: with the taker calling on an Active escrow, cancel fails
with TimelockNotExpired strictly before the timelock (exactly when
Timelock.isExpired is false) and succeeds from the timelock on, moving the
escrow to Cancelled and returning remainingAmount — or the full
depositedAmount when remainingAmount is 0, that is when nothing was ever
deposited or claimed — to the taker, who is the original depositor because
both deposit entry points only accept the taker; every successful cancel,
and every successful keeper RefundHTLC, happens at or after the timelock
and pays the original depositor (the HTLC sender on the Cosmos side). -/
theorem c7_cancel_after_timelock (now sender : Nat) (s : EscrowInfo)
    (hm : sender = s.taker) (ha : s.status = .Active) :
    (now < s.timelock →
      cancel now sender s = .error .TimelockNotExpired ∧
      Timelock.isExpired now s.timelock = false) ∧
    (s.timelock ≤ now →
      cancel now sender s =
        .ok ({ s with status := .Cancelled }, s.taker,
          if 0 < s.remainingAmount then s.remainingAmount
          else s.depositedAmount) ∧
      Timelock.isExpired now s.timelock = true) ∧
    (∀ (n w : Nat) (t u : EscrowInfo) (rcp amt : Nat),
      cancel n w t = .ok (u, rcp, amt) →
      t.status = .Active ∧ t.timelock ≤ n ∧ u.status = .Cancelled ∧
      rcp = t.taker ∧
      amt = (if 0 < t.remainingAmount then t.remainingAmount
             else t.depositedAmount)) ∧
    (∀ (w v : Nat) (t u : EscrowInfo), depositETH w v t = .ok u →
      w = t.taker) ∧
    (∀ (now2 : Int) (id rf : Nat) (kst kst1 : KeeperState),
      RefundHTLC now2 id rf kst = .ok kst1 →
      ∀ h : HTLC, getHTLC kst.store id = some h →
        rf = h.sender ∧ h.timeLock ≤ now2) := by
  refine ⟨?_, ?_, ?_, ?_, ?_⟩
  · intro hlt
    constructor
    · unfold cancel
      rw [if_neg (by simp [hm]), if_neg (by simp [ha]), if_neg (by simp [ha]),
          if_pos hlt]
    · simp [Timelock.isExpired]
      omega
  · intro hge
    constructor
    · unfold cancel
      rw [if_neg (by simp [hm]), if_neg (by simp [ha]), if_neg (by simp [ha]),
          if_neg (by omega)]
    · simp [Timelock.isExpired]
      omega
  · intro n w t u rcp amt h
    exact (cancel_ok_facts h).2
  · intro w v t u h
    exact (depositETH_ok_facts h).1
  · intro now2 id rf kst kst1 h hh hget
    rw [RefundHTLC_some hget] at h
    split_ifs at h with h1 h2 h3 h4
    refine ⟨by simpa using h3, by omega⟩

end CosmosSwap

namespace CosmosSwap

namespace DutchAuction

/-- getCurrentPrice on an active order, as a pure conditional. -/
theorem getCurrentPrice_active (o : Order) (now : Nat)
    (hact : o.active = true) :
    getCurrentPrice o now =
      (if now - o.startTime ≥ o.duration then some o.endPrice
       else some (o.startPrice -
         (o.startPrice - o.endPrice) * (now - o.startTime) / o.duration)) := by
  simp [getCurrentPrice, hact]

/-- The decay term never exceeds the whole price difference. -/
theorem decay_le_diff (sp ep d e : Nat) (hd : 0 < d) (he : e ≤ d) :
    (sp - ep) * e / d ≤ sp - ep := by
  calc (sp - ep) * e / d ≤ (sp - ep) * d / d :=
        Nat.div_le_div_right (Nat.mul_le_mul_left _ he)
    _ = sp - ep := Nat.mul_div_cancel _ hd

end DutchAuction

open DutchAuction

/-- Claim C3: for an active auction with positive duration and
endPrice ≤ startPrice (createOrder enforces both), the price is
startPrice while now ≤ startTime (elapsed ≤ 0), endPrice from
startTime + duration on, and in between the floored linear interpolation
startPrice - (startPrice - endPrice) * elapsed / duration, which never
falls below endPrice; in the spec scenario (1000 to 100 over 100 s from
time 0) the price at elapsed 50 is exactly 550 and at elapsed 150 exactly
100. -/
theorem c3_price_formula (o : DutchAuction.Order)
    (hact : o.active = true) (hdur : 0 < o.duration)
    (hord : o.endPrice ≤ o.startPrice) :
    (∀ now, now ≤ o.startTime →
      getCurrentPrice o now = some o.startPrice) ∧
    (∀ now, o.duration ≤ now - o.startTime →
      getCurrentPrice o now = some o.endPrice) ∧
    (∀ now, now - o.startTime < o.duration →
      getCurrentPrice o now =
        some (o.startPrice -
          (o.startPrice - o.endPrice) * (now - o.startTime) / o.duration) ∧
      o.endPrice ≤ o.startPrice -
        (o.startPrice - o.endPrice) * (now - o.startTime) / o.duration) ∧
    getCurrentPrice c3Order 50 = some 550 ∧
    getCurrentPrice c3Order 150 = some 100 := by
  refine ⟨?_, ?_, ?_, by decide, by decide⟩
  · intro now hle
    rw [getCurrentPrice_active o now hact]
    have he : now - o.startTime = 0 := Nat.sub_eq_zero_of_le hle
    rw [he, if_neg (by omega)]
    simp
  · intro now hge
    rw [getCurrentPrice_active o now hact, if_pos hge]
  · intro now hlt
    rw [getCurrentPrice_active o now hact, if_neg (by omega)]
    have hd := decay_le_diff o.startPrice o.endPrice o.duration
      (now - o.startTime) hdur (le_of_lt hlt)
    exact ⟨rfl, by omega⟩

/-- Claim C4: for an active auction with positive duration and
endPrice ≤ startPrice, the price computed by getCurrentPrice never
increases as time advances — recomputing at any later time t2 > t1 yields
a price no larger than at t1 — and it equals endPrice at every time from
startTime + duration on. -/
theorem c4_price_monotone (o : DutchAuction.Order) (t1 t2 : Nat)
    (hact : o.active = true) (hdur : 0 < o.duration)
    (hord : o.endPrice ≤ o.startPrice) (h12 : t1 < t2) :
    (∀ p1 p2, getCurrentPrice o t1 = some p1 →
      getCurrentPrice o t2 = some p2 → p2 ≤ p1) ∧
    (∀ t, o.startTime + o.duration ≤ t →
      getCurrentPrice o t = some o.endPrice) := by
  constructor
  · intro p1 p2 h1 h2
    rw [getCurrentPrice_active o t1 hact] at h1
    rw [getCurrentPrice_active o t2 hact] at h2
    have he : t1 - o.startTime ≤ t2 - o.startTime := by omega
    by_cases hc2 : t2 - o.startTime ≥ o.duration
    · rw [if_pos hc2] at h2
      simp only [Option.some.injEq] at h2
      by_cases hc1 : t1 - o.startTime ≥ o.duration
      · rw [if_pos hc1] at h1
        simp only [Option.some.injEq] at h1
        omega
      · rw [if_neg hc1] at h1
        simp only [Option.some.injEq] at h1
        have hd := decay_le_diff o.startPrice o.endPrice o.duration
          (t1 - o.startTime) hdur (by omega)
        omega
    · have hc1 : ¬ t1 - o.startTime ≥ o.duration := by omega
      rw [if_neg hc2] at h2
      rw [if_neg hc1] at h1
      simp only [Option.some.injEq] at h1 h2
      have hmono : (o.startPrice - o.endPrice) * (t1 - o.startTime) /
          o.duration ≤
          (o.startPrice - o.endPrice) * (t2 - o.startTime) / o.duration :=
        Nat.div_le_div_right (Nat.mul_le_mul_left _ he)
      omega
  · intro t ht
    rw [getCurrentPrice_active o t hact, if_pos (by omega)]

end CosmosSwap

namespace CosmosSwap

open Relayer Keeper

/-- Claim C8 as stated is false at this concrete order: the sweep at time
11 marks the order Expired although its status is matched — the Go loop
checks only now.After(ExpiresAt) and never looks at the status. -/
theorem c8_matched_marked_counterexample :
    Relayer.checkOrderTimeouts 11 [c8Order] =
      [{ c8Order with status := .expired }] ∧
    c8Order.status = .matched ∧ c8Order.expiresAt = 10 := by decide

/-- Claim C8 amended: on each tick the sweep marks as Expired exactly
those orders of the active map whose expiresAt lies strictly in the past,
regardless of their current status — including orders already Matched —
and leaves every other order untouched; marking changes only the status
field (id, secret, sourceTxHash and expiresAt are preserved), so no funds
move. -/
theorem c8_sweep_amended (now : Int) (orders : List Relayer.Order) (i : Nat)
    (h1 : i < orders.length)
    (h2 : i < (Relayer.checkOrderTimeouts now orders).length) :
    (Relayer.checkOrderTimeouts now orders).length = orders.length ∧
    ((orders.get ⟨i, h1⟩).expiresAt < now →
      (Relayer.checkOrderTimeouts now orders).get ⟨i, h2⟩ =
        { orders.get ⟨i, h1⟩ with status := .expired }) ∧
    (now ≤ (orders.get ⟨i, h1⟩).expiresAt →
      (Relayer.checkOrderTimeouts now orders).get ⟨i, h2⟩ =
        orders.get ⟨i, h1⟩) ∧
    ((Relayer.checkOrderTimeouts now orders).get ⟨i, h2⟩).id =
      (orders.get ⟨i, h1⟩).id ∧
    ((Relayer.checkOrderTimeouts now orders).get ⟨i, h2⟩).secret =
      (orders.get ⟨i, h1⟩).secret ∧
    ((Relayer.checkOrderTimeouts now orders).get ⟨i, h2⟩).sourceTxHash =
      (orders.get ⟨i, h1⟩).sourceTxHash ∧
    ((Relayer.checkOrderTimeouts now orders).get ⟨i, h2⟩).expiresAt =
      (orders.get ⟨i, h1⟩).expiresAt := by
  have hmap : (Relayer.checkOrderTimeouts now orders).get ⟨i, h2⟩ =
      (if now > (orders.get ⟨i, h1⟩).expiresAt then
        { orders.get ⟨i, h1⟩ with status := .expired }
       else orders.get ⟨i, h1⟩) := by
    simp [Relayer.checkOrderTimeouts, List.getElem_map]
  refine ⟨by simp [Relayer.checkOrderTimeouts], ?_, ?_, ?_, ?_, ?_, ?_⟩
  · intro hlt
    rw [hmap, if_pos hlt]
  · intro hge
    rw [hmap, if_neg (by omega)]
  all_goals
    rw [hmap]
  all_goals
    by_cases hlt : (orders.get ⟨i, h1⟩).expiresAt < now
  all_goals
    first
      | (rw [if_pos hlt])
      | (rw [if_neg hlt])

/-- Claim C9: starting from any keeper state whose store never flags an
HTLC as both claimed and refunded, any sequence of CreateHTLC, ClaimHTLC
and RefundHTLC messages preserves that exclusivity; ClaimHTLC on a
refunded HTLC fails with ErrHTLCRefunded, a second ClaimHTLC fails with
ErrHTLCClaimed, RefundHTLC on a claimed HTLC fails with ErrHTLCClaimed, a
second RefundHTLC fails with ErrHTLCRefunded, and a failed message leaves
the state — store, balances and all — exactly unchanged. -/
theorem c9_claim_refund_exclusive (sha : List Nat → List Nat)
    (ops : List KOp) (st : KeeperState)
    (hinv : NotBothFlags st.store) :
    NotBothFlags (runKOps sha ops st).store ∧
    (∀ (now : Int) (id : Nat) (p : List Nat) (c : Nat) (h : HTLC),
      getHTLC st.store id = some h → h.claimed = false →
      h.refunded = true →
      ClaimHTLC sha now id p c st = .error .ErrHTLCRefunded) ∧
    (∀ (now : Int) (id : Nat) (p : List Nat) (c : Nat) (h : HTLC),
      getHTLC st.store id = some h → h.claimed = true →
      ClaimHTLC sha now id p c st = .error .ErrHTLCClaimed) ∧
    (∀ (now : Int) (id r : Nat) (h : HTLC),
      getHTLC st.store id = some h → h.claimed = true →
      RefundHTLC now id r st = .error .ErrHTLCClaimed) ∧
    (∀ (now : Int) (id r : Nat) (h : HTLC),
      getHTLC st.store id = some h → h.claimed = false →
      h.refunded = true →
      RefundHTLC now id r st = .error .ErrHTLCRefunded) ∧
    (∀ (now : Int) (id : Nat) (p : List Nat) (c : Nat) (e : HTLCError),
      ClaimHTLC sha now id p c st = .error e →
      applyKOp sha (.claim now id p c) st = st) ∧
    (∀ (now : Int) (id r : Nat) (e : HTLCError),
      RefundHTLC now id r st = .error e →
      applyKOp sha (.refund now id r) st = st) := by
  refine ⟨NotBothFlags_runKOps sha ops st hinv, ?_, ?_, ?_, ?_, ?_, ?_⟩
  · intro now id p c h hget hcl href
    rw [ClaimHTLC_some hget, if_neg (by simp [hcl]), if_pos href]
  · intro now id p c h hget hcl
    rw [ClaimHTLC_some hget, if_pos hcl]
  · intro now id r h hget hcl
    rw [RefundHTLC_some hget, if_pos hcl]
  · intro now id r h hget hcl href
    rw [RefundHTLC_some hget, if_neg (by simp [hcl]), if_pos href]
  · intro now id p c e h
    show (match ClaimHTLC sha now id p c st with
      | Except.ok st1 => st1
      | Except.error _ => st) = st
    rw [h]
  · intro now id r e h
    show (match RefundHTLC now id r st with
      | Except.ok st1 => st1
      | Except.error _ => st) = st
    rw [h]

/-- Claim C10: for any stored HTLC, ClaimHTLC can succeed only when the
claimer is the recorded Receiver and otherwise — all other checks passing
— fails with ErrUnauthorizedClaimer, and RefundHTLC can succeed only when
the refunder is the recorded Sender and otherwise fails with
ErrUnauthorizedRefunder; in both failure cases the whole keeper state,
coins included, is unchanged. -/
theorem c10_authorization (sha : List Nat → List Nat) (now : Int)
    (id : Nat) (preimage : List Nat) (caller : Nat) (st : KeeperState)
    (h : HTLC) (hget : getHTLC st.store id = some h) :
    (∀ st1, ClaimHTLC sha now id preimage caller st = .ok st1 →
      caller = h.receiver) ∧
    (h.claimed = false → h.refunded = false →
      sha preimage = h.hashLock → caller ≠ h.receiver →
      ClaimHTLC sha now id preimage caller st =
        .error .ErrUnauthorizedClaimer ∧
      applyKOp sha (.claim now id preimage caller) st = st) ∧
    (∀ st1, RefundHTLC now id caller st = .ok st1 → caller = h.sender) ∧
    (h.claimed = false → h.refunded = false → caller ≠ h.sender →
      RefundHTLC now id caller st = .error .ErrUnauthorizedRefunder ∧
      applyKOp sha (.refund now id caller) st = st) := by
  refine ⟨?_, ?_, ?_, ?_⟩
  · intro st1 hok
    obtain ⟨htlc, hget2, hcl, hrf, hrecv, hstore⟩ := ClaimHTLC_ok_store hok
    rw [hget] at hget2
    simp only [Option.some.injEq] at hget2
    rw [hget2]
    exact hrecv
  · intro hcl href hsha hne
    have herr : ClaimHTLC sha now id preimage caller st =
        .error .ErrUnauthorizedClaimer := by
      rw [ClaimHTLC_some hget, if_neg (by simp [hcl]),
          if_neg (by simp [href]), if_neg (by simp [hsha]), if_pos hne]
    refine ⟨herr, ?_⟩
    show (match ClaimHTLC sha now id preimage caller st with
      | Except.ok st1 => st1
      | Except.error _ => st) = st
    rw [herr]
  · intro st1 hok
    obtain ⟨htlc, hget2, hcl, hrf, hsend, hstore⟩ := RefundHTLC_ok_store hok
    rw [hget] at hget2
    simp only [Option.some.injEq] at hget2
    rw [hget2]
    exact hsend
  · intro hcl href hne
    have herr : RefundHTLC now id caller st =
        .error .ErrUnauthorizedRefunder := by
      rw [RefundHTLC_some hget, if_neg (by simp [hcl]),
          if_neg (by simp [href]), if_pos hne]
    refine ⟨herr, ?_⟩
    show (match RefundHTLC now id caller st with
      | Except.ok st1 => st1
      | Except.error _ => st) = st
    rw [herr]

end CosmosSwap

namespace CosmosSwap

open Escrow DutchAuction Keeper

/-- Witness for c1_withdraw_amended at the concrete fixtures. -/
theorem c1_withdraw_amended_witness :
    (1 : Nat) = c1Escrow.maker ∧ c1Escrow.status = .Active ∧
    c1Escrow.srcConfirmed = true ∧
    (idHash 42 = c1Escrow.secretHash →
      Escrow.withdraw idHash 1 42 c1Escrow =
        .ok ({ c1Escrow with status := .Withdrawn }, c1Escrow.maker,
          if c1Escrow.allowPartialFill then c1Escrow.remainingAmount
          else c1Escrow.depositedAmount) ∧
      ({ c1Escrow with status := .Withdrawn } :
          Escrow.EscrowInfo).remainingAmount = c1Escrow.remainingAmount) ∧
    Keeper.ClaimHTLC idSha 5 1 (List.replicate 32 7) 3 c1KState =
      Keeper.sendCoinsFromModule
        (Keeper.setKeeperHTLC c1KState { c1HTLC with claimed := true })
        c1HTLC.receiver c1HTLC.amount := by
  have h := c1_withdraw_amended idHash 1 42 c1Escrow rfl rfl rfl
  exact ⟨rfl, rfl, rfl, h.2.1,
    (h.2.2 idSha 5 1 3 (List.replicate 32 7) c1KState c1HTLC
      (by decide) rfl rfl rfl rfl).2 (by decide)⟩

/-- Witness for c2_partial_fill_accounting on the spec scenario. -/
theorem c2_partial_fill_accounting_witness :
    c2Escrow.filledAmount = 0 ∧
    c2Escrow.remainingAmount = c2Escrow.depositedAmount ∧
    0 < c2Escrow.depositedAmount ∧
    Escrow.runPartialWithdraws idHash 1 42 [60, 40] c2Escrow =
      some c2Final ∧
    c2Final.filledAmount = [60, 40].sum ∧
    c2Final.filledAmount + c2Final.remainingAmount =
      c2Final.depositedAmount ∧
    c2Final.status = .Withdrawn ∧
    Escrow.partialWithdraw idHash 1 42 7 c2Final =
      .error .AlreadyWithdrawn := by
  have h := c2_partial_fill_accounting idHash 1 42 [60, 40] c2Escrow c2Final
    rfl rfl (by decide) (by decide)
  exact ⟨rfl, rfl, by decide, by decide, h.1, h.2.1, (h.2.2 rfl).1,
    (h.2.2 rfl).2 7⟩

/-- Witness for c3_price_formula on the spec scenario auction. -/
theorem c3_price_formula_witness :
    c3Order.active = true ∧ 0 < c3Order.duration ∧
    c3Order.endPrice ≤ c3Order.startPrice ∧
    DutchAuction.getCurrentPrice c3Order 50 = some 550 ∧
    DutchAuction.getCurrentPrice c3Order 150 = some 100 := by
  have h := c3_price_formula c3Order rfl (by decide) (by decide)
  exact ⟨rfl, by decide, by decide, h.2.2.2.1, h.2.2.2.2⟩

/-- Witness for c4_price_monotone at times 10 and 20 of the scenario
auction. -/
theorem c4_price_monotone_witness :
    c3Order.active = true ∧ 0 < c3Order.duration ∧
    c3Order.endPrice ≤ c3Order.startPrice ∧ (10 : Nat) < 20 ∧
    DutchAuction.getCurrentPrice c3Order 10 = some 910 ∧
    DutchAuction.getCurrentPrice c3Order 20 = some 820 ∧
    (820 : Nat) ≤ 910 ∧
    DutchAuction.getCurrentPrice c3Order 200 = some 100 := by
  have h := c4_price_monotone c3Order 10 20 rfl (by decide) (by decide)
    (by decide)
  exact ⟨rfl, by decide, by decide, by decide, by decide, by decide,
    h.1 910 820 (by decide) (by decide), h.2 200 (by decide)⟩

/-- Witness for c5_partial_checks_amended: a conforming 60-unit fill on
the scenario escrow. -/
theorem c5_partial_checks_amended_witness :
    (1 : Nat) = c2Escrow.maker ∧ c2Escrow.status = .Active ∧
    c2Escrow.allowPartialFill = true ∧ c2Escrow.srcConfirmed = true ∧
    idHash 42 = c2Escrow.secretHash ∧
    (60 ≤ c2Escrow.remainingAmount →
      (c2Escrow.minimumFillAmount ≤ 60 ∨ c2Escrow.minimumFillAmount = 0) →
      Escrow.partialWithdraw idHash 1 42 60 c2Escrow =
        .ok (if c2Escrow.remainingAmount - 60 = 0 then
               { c2Escrow with
                   filledAmount := c2Escrow.filledAmount + 60,
                   remainingAmount := c2Escrow.remainingAmount - 60,
                   status := .Withdrawn }
             else
               { c2Escrow with
                   filledAmount := c2Escrow.filledAmount + 60,
                   remainingAmount := c2Escrow.remainingAmount - 60 },
             c2Escrow.maker, 60)) :=
  ⟨rfl, rfl, rfl, rfl, rfl,
   (c5_partial_checks_amended idHash 1 42 60 c2Escrow rfl rfl rfl rfl
     rfl).2.2⟩

/-- Witness for c6_fund_amended: the exact expected amount funds the
escrow. -/
theorem c6_fund_amended_witness :
    (2 : Nat) = c6Escrow.taker ∧ c6Escrow.status = .Active ∧
    c6Escrow.depositedAmount = 0 ∧
    ((100 : Nat) = c6Escrow.expectedAmount →
      Escrow.depositETH 2 100 c6Escrow =
        .ok { c6Escrow with depositedAmount := 100, remainingAmount := 100,
                            tokenAddress := 0 } ∧
      Escrow.depositToken 2 5 100 c6Escrow =
        .ok { c6Escrow with depositedAmount := 100, remainingAmount := 100,
                            tokenAddress := 5 }) :=
  ⟨rfl, rfl, rfl, (c6_fund_amended 2 100 5 c6Escrow rfl rfl rfl).2.1⟩

/-- Witness for c7_cancel_after_timelock on the partially claimed
fixture. -/
theorem c7_cancel_after_timelock_witness :
    (2 : Nat) = c7Escrow.taker ∧ c7Escrow.status = .Active ∧
    (c7Escrow.timelock ≤ 1000 →
      Escrow.cancel 1000 2 c7Escrow =
        .ok ({ c7Escrow with status := .Cancelled }, c7Escrow.taker,
          if 0 < c7Escrow.remainingAmount then c7Escrow.remainingAmount
          else c7Escrow.depositedAmount) ∧
      Timelock.isExpired 1000 c7Escrow.timelock = true) ∧
    ((1000 : Nat) < c7Escrow.timelock →
      Escrow.cancel 1000 2 c7Escrow = .error .TimelockNotExpired ∧
      Timelock.isExpired 1000 c7Escrow.timelock = false) := by
  have h := c7_cancel_after_timelock 1000 2 c7Escrow rfl rfl
  exact ⟨rfl, rfl, h.2.1, h.1⟩

/-- Witness for c8_sweep_amended on the matched, expired fixture order. -/
theorem c8_sweep_amended_witness :
    (0 : Nat) < [c8Order].length ∧
    (0 : Nat) < (Relayer.checkOrderTimeouts 11 [c8Order]).length ∧
    (Relayer.checkOrderTimeouts 11 [c8Order]).length = [c8Order].length ∧
    (([c8Order].get ⟨0, by decide⟩).expiresAt < 11 →
      (Relayer.checkOrderTimeouts 11 [c8Order]).get ⟨0, by decide⟩ =
        { [c8Order].get ⟨0, by decide⟩ with status := .expired }) := by
  have h := c8_sweep_amended 11 [c8Order] 0 (by decide) (by decide)
  exact ⟨by decide, by decide, h.1, h.2.1⟩

/-- Witness for c9_claim_refund_exclusive on the refunded fixture HTLC. -/
theorem c9_claim_refund_exclusive_witness :
    Keeper.NotBothFlags c9KState.store ∧
    Keeper.NotBothFlags
      (Keeper.runKOps idSha [Keeper.KOp.claim 4 1 (List.replicate 32 7) 3]
        c9KState).store ∧
    Keeper.ClaimHTLC idSha 4 1 (List.replicate 32 7) 3 c9KState =
      .error .ErrHTLCRefunded ∧
    Keeper.RefundHTLC 7 1 2 c9KState = .error .ErrHTLCRefunded ∧
    Keeper.applyKOp idSha (.claim 4 1 (List.replicate 32 7) 3) c9KState =
      c9KState := by
  have h := c9_claim_refund_exclusive idSha
    [Keeper.KOp.claim 4 1 (List.replicate 32 7) 3] c9KState (by decide)
  refine ⟨by decide, h.1, ?_, ?_, ?_⟩
  · exact h.2.1 4 1 (List.replicate 32 7) 3 c9HTLC (by decide) rfl rfl
  · exact h.2.2.2.2.1 7 1 2 c9HTLC (by decide) rfl rfl
  · exact h.2.2.2.2.2.1 4 1 (List.replicate 32 7) 3 .ErrHTLCRefunded
      (h.2.1 4 1 (List.replicate 32 7) 3 c9HTLC (by decide) rfl rfl)

/-- Witness for c10_authorization: a wrong caller is turned away on both
paths and the state survives untouched. -/
theorem c10_authorization_witness :
    Keeper.getHTLC c1KState.store 1 = some c1HTLC ∧
    Keeper.ClaimHTLC idSha 5 1 (List.replicate 32 7) 99 c1KState =
      .error .ErrUnauthorizedClaimer ∧
    Keeper.applyKOp idSha (.claim 5 1 (List.replicate 32 7) 99) c1KState =
      c1KState ∧
    Keeper.RefundHTLC 5 1 99 c1KState =
      .error .ErrUnauthorizedRefunder := by
  have h := c10_authorization idSha 5 1 (List.replicate 32 7) 99 c1KState
    c1HTLC (by decide)
  refine ⟨by decide, ?_, ?_, ?_⟩
  · exact (h.2.1 rfl rfl rfl (by decide)).1
  · exact (h.2.1 rfl rfl rfl (by decide)).2
  · exact (h.2.2.2 rfl rfl (by decide)).1

end CosmosSwap
